import Mathlib

/-!
Verification of the Corrade `Utility::Json` tokenizer and selective-parser
(`src/Corrade/Utility/Json.h`).  The header contains the inline accessors
(`JsonToken::next`, `firstChild`, `isParsed`, `parsedType`, the `as*` getters)
and the full bit layout of the token record; the out-of-line part
(`Json.cpp`: the tokenizer, `childCount`, the `parse*` routines) is not in
the source tree, so those operations are modelled from the specification, as
marked on each definition.

The development has three layers:
1. a structural layer: JSON values flattened to the depth-first token array
   with descendant counts, exactly as `Utility-Json-tokenization` describes;
2. an operational layer: the character-level tokenizer and the numeric
   validation and bulk-parse routines, modelled from the spec;
3. a representation layer: the 64-bit and 32-bit bit-packed token words with
   the accessors transcribed from the header.
-/

/-- Token type, as inferred from the first byte of a token's span
(`JsonToken::Type` in the header; `stringKey` tracks the private
`FlagStringKey` distinction between object keys and string values). -/
inductive TokType where
  | object | array | null | boolean | number | stringValue | stringKey
deriving DecidableEq, Repr

/-- A structural-layer token record: its type and its child count
(`childCount()`, the number of all tokens nested below it, not just
immediate children). -/
structure Tok where
  ttype : TokType
  cc : Nat
deriving DecidableEq, Repr

mutual

/-- A JSON value.  Numbers and strings keep their raw source text, as the
tokenizer does not validate scalars. -/
inductive JVal where
  | null : JVal
  | boolean : Bool → JVal
  | number : String → JVal
  | string : String → JVal
  | array : JArr → JVal
  | object : JObj → JVal

/-- A list of array elements. -/
inductive JArr where
  | nil : JArr
  | cons : JVal → JArr → JArr

/-- A list of object members (key, value). -/
inductive JObj where
  | nil : JObj
  | cons : String → JVal → JObj → JObj

end

mutual

/-- Modelled from the spec: the token array the tokenizer produces for one
JSON value, in strict depth-first pre-order.  A container token's child
count is backpatched to the number of tokens nested below it; scalar values
carry count 0.  (`Json::tokenize` lives in `Json.cpp`, which is not in the
source tree; this follows section 4.2 and the `Utility-Json-tokenization`
docs in the header.) -/
def vtokens : JVal → List Tok
  | .null => [⟨.null, 0⟩]
  | .boolean _ => [⟨.boolean, 0⟩]
  | .number _ => [⟨.number, 0⟩]
  | .string _ => [⟨.stringValue, 0⟩]
  | .array a => ⟨.array, (atokens a).length⟩ :: atokens a
  | .object o => ⟨.object, (otokens o).length⟩ :: otokens o

/-- Modelled from the spec: tokens of an array's elements, concatenated in
order. -/
def atokens : JArr → List Tok
  | .nil => []
  | .cons v rest => vtokens v ++ atokens rest

/-- Modelled from the spec: tokens of an object's members.  Each key is one
`stringKey` token whose child count is the size of its value's whole token
subtree (the value's own child count plus one), so that `next()` lands on
the following key. -/
def otokens : JObj → List Tok
  | .nil => []
  | .cons _ v rest => (⟨.stringKey, (vtokens v).length⟩ :: vtokens v) ++ otokens rest

end

/-- The root token of a value's token array, with its backpatched child
count. -/
def headTok : JVal → Tok
  | .null => ⟨.null, 0⟩
  | .boolean _ => ⟨.boolean, 0⟩
  | .number _ => ⟨.number, 0⟩
  | .string _ => ⟨.stringValue, 0⟩
  | .array a => ⟨.array, (atokens a).length⟩
  | .object o => ⟨.object, (otokens o).length⟩

/-- A node of the token hierarchy: either a JSON value or an object key
together with its value (a key token owns its value's subtree, per the
token-hierarchy paragraph of the header docs). -/
inductive JNode where
  | val : JVal → JNode
  | key : String → JVal → JNode

/-- Token array of a single hierarchy node. -/
def ntokens : JNode → List Tok
  | .val v => vtokens v
  | .key _ v => ⟨.stringKey, (vtokens v).length⟩ :: vtokens v

/-- Token array of a forest of hierarchy nodes (subtrees laid out one after
another, as siblings are in the flat token array). -/
def ftokens : List JNode → List Tok
  | [] => []
  | n :: rest => ntokens n ++ ftokens rest

/-- Array elements as hierarchy nodes. -/
def arrNodes : JArr → List JNode
  | .nil => []
  | .cons v rest => .val v :: arrNodes rest

/-- Object members as hierarchy nodes (keys). -/
def objNodes : JObj → List JNode
  | .nil => []
  | .cons k v rest => .key k v :: objNodes rest

/-- Root token of a hierarchy node. -/
def nodeRoot : JNode → Tok
  | .val v => headTok v
  | .key _ v => ⟨.stringKey, (vtokens v).length⟩

/-- Immediate children of a hierarchy node, as nodes: an object's children
are its keys, a key's single child is its value, an array's children are
its elements, scalars have none. -/
def childNodes : JNode → List JNode
  | .val .null => []
  | .val (.boolean _) => []
  | .val (.number _) => []
  | .val (.string _) => []
  | .val (.array a) => arrNodes a
  | .val (.object o) => objNodes o
  | .key _ v => [.val v]

theorem atokens_eq_ftokens : ∀ a : JArr, atokens a = ftokens (arrNodes a)
  | .nil => rfl
  | .cons v rest => by
      simp [atokens, arrNodes, ftokens, ntokens, atokens_eq_ftokens rest]

theorem otokens_eq_ftokens : ∀ o : JObj, otokens o = ftokens (objNodes o)
  | .nil => rfl
  | .cons k v rest => by
      simp [otokens, objNodes, ftokens, ntokens, otokens_eq_ftokens rest]

theorem ntokens_eq (n : JNode) :
    ntokens n = nodeRoot n :: ftokens (childNodes n) := by
  match n with
  | .val .null => rfl
  | .val (.boolean _) => rfl
  | .val (.number _) => rfl
  | .val (.string _) => rfl
  | .val (.array a) =>
      simp [ntokens, nodeRoot, childNodes, vtokens, headTok, atokens_eq_ftokens]
  | .val (.object o) =>
      simp [ntokens, nodeRoot, childNodes, vtokens, headTok, otokens_eq_ftokens]
  | .key k v => simp [ntokens, nodeRoot, childNodes, ftokens]

theorem nodeRoot_cc (n : JNode) :
    (nodeRoot n).cc = (ftokens (childNodes n)).length := by
  match n with
  | .val .null => rfl
  | .val (.boolean _) => rfl
  | .val (.number _) => rfl
  | .val (.string _) => rfl
  | .val (.array a) => simp [nodeRoot, childNodes, headTok, atokens_eq_ftokens]
  | .val (.object o) => simp [nodeRoot, childNodes, headTok, otokens_eq_ftokens]
  | .key k v => simp [nodeRoot, childNodes, ftokens, ntokens]

theorem ntokens_length (n : JNode) :
    (ntokens n).length = (nodeRoot n).cc + 1 := by
  rw [ntokens_eq n, nodeRoot_cc n]
  simp

/-- Every position of a forest's token array starts the token array of a
complete hierarchy subtree: the core structural fact behind O(1)
`next()`-based traversal. -/
theorem forest_decomp : ∀ (k : Nat) (ns : List JNode) (i : Nat),
    (ftokens ns).length ≤ k → i < (ftokens ns).length →
    ∃ (m : JNode) (pre post : List Tok),
      ftokens ns = pre ++ ntokens m ++ post ∧ pre.length = i := by
  intro k
  induction k with
  | zero => intro ns i hle hi; omega
  | succ k ih =>
    intro ns i hle hi
    match ns with
    | [] => simp [ftokens] at hi
    | n :: rest =>
      have hcons : ftokens (n :: rest) = ntokens n ++ ftokens rest := rfl
      have hnlen : (ntokens n).length = (ftokens (childNodes n)).length + 1 := by
        rw [ntokens_length n, nodeRoot_cc n]
      by_cases hc : i < (ntokens n).length
      · by_cases hz : i = 0
        · exact ⟨n, [], ftokens rest, by simp [hcons], by simp [hz]⟩
        · have hlen : (ftokens (childNodes n)).length ≤ k := by
            have h1 : (ntokens n).length ≤ (ftokens (n :: rest)).length := by
              rw [hcons]; simp
            omega
          have hi' : i - 1 < (ftokens (childNodes n)).length := by omega
          obtain ⟨m, pre, post, hdec, hpre⟩ := ih (childNodes n) (i - 1) hlen hi'
          refine ⟨m, nodeRoot n :: pre, post ++ ftokens rest, ?_, ?_⟩
          · rw [hcons, ntokens_eq n, hdec]
            simp
          · simp [hpre]; omega
      · have hlen : (ftokens rest).length ≤ k := by
          have h1 : (ftokens (n :: rest)).length
              = (ntokens n).length + (ftokens rest).length := by
            rw [hcons]; simp
          omega
        have hi' : i - (ntokens n).length < (ftokens rest).length := by
          have h1 : (ftokens (n :: rest)).length
              = (ntokens n).length + (ftokens rest).length := by
            rw [hcons]; simp
          omega
        obtain ⟨m, pre, post, hdec, hpre⟩ := ih rest (i - (ntokens n).length) hlen hi'
        refine ⟨m, ntokens n ++ pre, post, ?_, ?_⟩
        · rw [hcons, hdec]; simp
        · simp [hpre]; omega

theorem get?_append_mid (pre : List Tok) (r : Tok) (suf : List Tok) :
    (pre ++ r :: suf).get? pre.length = some r := by
  induction pre with
  | nil => rfl
  | cons a pre ih => simpa using ih

/-- Mirrors `JsonToken::next()` from the header, at the index level: the
pointer `this + childCount() + 1` becomes the index `i + cc + 1`. -/
def tokNext (i : Nat) (t : Tok) : Nat := i + t.cc + 1

theorem vtokens_eq_fsingle (v : JVal) : vtokens v = ftokens [JNode.val v] := by
  simp [ftokens, ntokens]

/-- C1: for every token t in a Document's token array, `JsonToken::next()`
returns the record at t's own position plus `childCount(t) + 1`, which is
the first token after t's entire nested subtree (one past the end of the
array when t is the last subtree): the token array decomposes as
`pre ++ subtree ++ post` with t the subtree's root, and
`next = i + childCount + 1` is exactly the subtree's end, bounded by the
array length. -/
theorem jsonToken_next_skips_subtree (v : JVal) (i : Nat) (t : Tok)
    (h : (vtokens v).get? i = some t) :
    ∃ (m : JNode) (pre post : List Tok),
      vtokens v = pre ++ ntokens m ++ post ∧
      pre.length = i ∧
      t = nodeRoot m ∧
      tokNext i t = i + (ntokens m).length ∧
      tokNext i t = (vtokens v).length - post.length ∧
      tokNext i t ≤ (vtokens v).length := by
  have hi : i < (vtokens v).length := by
    by_contra hcon
    rw [List.get?_eq_none.2 (by omega)] at h
    exact Option.noConfusion h
  rw [vtokens_eq_fsingle v] at hi
  obtain ⟨m, pre, post, hdec, hpre⟩ :=
    forest_decomp (ftokens [JNode.val v]).length [JNode.val v] i (le_refl _) hi
  rw [← vtokens_eq_fsingle v] at hdec
  have hroot : t = nodeRoot m := by
    have h2 : (vtokens v).get? i = some (nodeRoot m) := by
      rw [hdec, ntokens_eq m, ← hpre]
      have := get?_append_mid pre (nodeRoot m) (ftokens (childNodes m) ++ post)
      simpa using this
    rw [h2] at h
    exact (Option.some_inj.1 h).symm
  have hlen : (vtokens v).length
      = pre.length + (ntokens m).length + post.length := by
    rw [hdec]; simp; omega
  have hnext : tokNext i t = i + (ntokens m).length := by
    rw [hroot, tokNext, ntokens_length m]
    omega
  refine ⟨m, pre, post, hdec, hpre, hroot, hnext, by omega, by omega⟩

/-- Concrete document used in several witnesses: the two-level object
written in JSON as an object with key a whose value is an object with key b
and value null. -/
def exNested : JVal :=
  .object (.cons "a" (.object (.cons "b" .null .nil)) .nil)

/-- C1 witness: the theorem applied to the key token at index 1 of the
nested example document. -/
theorem jsonToken_next_skips_subtree_witness :
    ∃ (m : JNode) (pre post : List Tok),
      vtokens exNested = pre ++ ntokens m ++ post ∧
      pre.length = 1 ∧
      (⟨TokType.stringKey, 3⟩ : Tok) = nodeRoot m ∧
      tokNext 1 ⟨TokType.stringKey, 3⟩ = 1 + (ntokens m).length ∧
      tokNext 1 ⟨TokType.stringKey, 3⟩ = (vtokens exNested).length - post.length ∧
      tokNext 1 ⟨TokType.stringKey, 3⟩ ≤ (vtokens exNested).length :=
  jsonToken_next_skips_subtree exNested 1 ⟨TokType.stringKey, 3⟩ (by decide)

/-- C2 counterexample: in the document of `exNested` the key token at index
1 is a String object key whose `childCount()` is 3 (its value is an object
holding one key and one value), not 1. -/
theorem key_childCount_not_one :
    ∃ (i : Nat) (t : Tok), (vtokens exNested).get? i = some t ∧
      t.ttype = TokType.stringKey ∧ t.cc ≠ 1 :=
  ⟨1, ⟨TokType.stringKey, 3⟩, by decide, by decide, by decide⟩

theorem vtokens_length (v : JVal) :
    (vtokens v).length = (headTok v).cc + 1 := by
  match v with
  | .null => rfl
  | .boolean _ => rfl
  | .number _ => rfl
  | .string _ => rfl
  | .array a => simp [vtokens, headTok]
  | .object o => simp [vtokens, headTok]

/-- C2 amended: for every String token that is an object key, `childCount()`
returns the size of its value's whole token subtree, i.e. the value's own
`childCount()` plus one.  It is therefore always at least 1, and equals 1
exactly when the value under the key has no children of its own. -/
theorem key_childCount_value_subtree (k : String) (v : JVal) (o : JObj) :
    ∃ tail, otokens (JObj.cons k v o) = ⟨.stringKey, (headTok v).cc + 1⟩ :: tail ∧
      (headTok v).cc + 1 = (vtokens v).length ∧
      1 ≤ (headTok v).cc + 1 ∧
      ((headTok v).cc + 1 = 1 ↔ (headTok v).cc = 0) := by
  refine ⟨vtokens v ++ otokens o, ?_, (vtokens_length v).symm, by omega, by omega⟩
  simp [otokens, vtokens_length v]

/-! ## Numeric parsing policy (section 4.3 of the spec)

The `parse*` conversion routines live in `Json.cpp`, which is not in the
source tree; the validators below are modelled from the spec's rules for
the integer kinds: reject a present fractional part or exponent even when
the numeric value is integral, unsigned kinds additionally reject a leading
minus, and each kind enforces its bit-width range (32-bit kinds fit in 32
bits, the 64-bit unsigned kind has magnitude at most 2 to the 52, the
64-bit signed kind magnitude at most 2 to the 53). -/

/-- Whether a number literal contains a fractional part or an exponent. -/
def hasFracOrExp (s : List Char) : Bool :=
  s.any (fun c => c = '.' || c = 'e' || c = 'E')

/-- Value of one decimal digit. -/
def digitVal (c : Char) : Nat := c.toNat - 48

/-- Value of a nonempty run of decimal digits. -/
def digitsVal (s : List Char) : Nat :=
  s.foldl (fun a c => a * 10 + digitVal c) 0

/-- Decimal digits to a number: fails on an empty run or any non-digit. -/
def parseDigits (s : List Char) : Option Nat :=
  if s ≠ [] ∧ s.all Char.isDigit then some (digitsVal s) else none

/-- Modelled from the spec: the validation and conversion core of
`JsonToken::parseUnsignedInt()` applied to a Number token's text
(`Json.cpp` is not in the source tree).  Rejects a fractional part or
exponent, a leading minus, and values not fitting 32 bits. -/
def parseUnsignedIntM (s : List Char) : Option Nat :=
  if hasFracOrExp s then none
  else match s with
    | '-' :: _ => none
    | ds =>
      match parseDigits ds with
      | none => none
      | some n => if n < 2 ^ 32 then some n else none


/-- Sign handling of a number literal: whether a leading minus is present,
and the text after it. -/
def stripMinus : List Char → Bool × List Char
  | '-' :: rest => (true, rest)
  | rest => (false, rest)

/-- Apply a sign to a magnitude. -/
def applySign (neg : Bool) (n : Nat) : Int :=
  if neg then -(n : Int) else (n : Int)

/-- Modelled from the spec: the core of `JsonToken::parseInt()`.  Rejects a
fractional part or exponent and values not fitting a signed 32-bit
representation; a leading minus is allowed. -/
def parseIntM (s : List Char) : Option Int :=
  if hasFracOrExp s then none
  else
    match parseDigits (stripMinus s).2 with
    | none => none
    | some n =>
      if -(2 ^ 31 : Int) ≤ applySign (stripMinus s).1 n ∧
          applySign (stripMinus s).1 n < 2 ^ 31 then
        some (applySign (stripMinus s).1 n)
      else none

/-- Modelled from the spec: the core of `JsonToken::parseUnsignedLong()`.
Rejects a fractional part or exponent, a leading minus, and magnitudes
above 2 to the 52 (the representable unsigned integer range of the JSON
numeric type). -/
def parseUnsignedLongM (s : List Char) : Option Nat :=
  if hasFracOrExp s then none
  else match s with
    | '-' :: _ => none
    | ds =>
      match parseDigits ds with
      | none => none
      | some n => if n ≤ 2 ^ 52 then some n else none

/-- Modelled from the spec: the core of `JsonToken::parseLong()`.  Rejects
a fractional part or exponent and magnitudes above 2 to the 53 (the
representable signed integer range of the JSON numeric type). -/
def parseLongM (s : List Char) : Option Int :=
  if hasFracOrExp s then none
  else
    match parseDigits (stripMinus s).2 with
    | none => none
    | some n =>
      if (applySign (stripMinus s).1 n).natAbs ≤ 2 ^ 53 then
        some (applySign (stripMinus s).1 n)
      else none

set_option maxRecDepth 4096 in
/-- C3: `parseUnsignedInt` applied to a Number token with text -1 fails;
applied to 4294967296 fails (does not fit 32 bits); applied to 42 succeeds
and yields 42; applied to 42.0 fails because a fractional part is present,
even though the numeric value is integral. -/
theorem parseUnsignedInt_examples :
    parseUnsignedIntM ("-1".toList) = none ∧
    parseUnsignedIntM ("4294967296".toList) = none ∧
    parseUnsignedIntM ("42".toList) = some 42 ∧
    parseUnsignedIntM ("42.0".toList) = none := by
  refine ⟨rfl, by decide, rfl, rfl⟩

/-- C4: the integer parse kinds reject any literal with a fractional part
or exponent even when the value is integral; the unsigned kinds reject a
leading minus; and each kind enforces its range: the 32-bit kinds fit 32
bits, the 64-bit unsigned kind has magnitude at most 2 to the 52, the
64-bit signed kind magnitude at most 2 to the 53.  Any violation makes the
parse fail (return none, the error result). -/
theorem integer_parse_kinds_policy (s : List Char) :
    (hasFracOrExp s = true →
      parseUnsignedIntM s = none ∧ parseIntM s = none ∧
      parseUnsignedLongM s = none ∧ parseLongM s = none) ∧
    (∀ rest, s = '-' :: rest →
      parseUnsignedIntM s = none ∧ parseUnsignedLongM s = none) ∧
    (∀ n, parseUnsignedIntM s = some n → n < 2 ^ 32) ∧
    (∀ v, parseIntM s = some v → -(2 ^ 31 : Int) ≤ v ∧ v < 2 ^ 31) ∧
    (∀ n, parseUnsignedLongM s = some n → n ≤ 2 ^ 52) ∧
    (∀ v, parseLongM s = some v → v.natAbs ≤ 2 ^ 53) := by
  refine ⟨?_, ?_, ?_, ?_, ?_, ?_⟩
  · intro h
    refine ⟨?_, ?_, ?_, ?_⟩ <;>
      simp [parseUnsignedIntM, parseIntM, parseUnsignedLongM, parseLongM, h]
  · intro rest hrest
    subst hrest
    exact ⟨by simp [parseUnsignedIntM], by simp [parseUnsignedLongM]⟩
  · intro n h
    simp only [parseUnsignedIntM] at h
    split at h
    · cases h
    · split at h
      · cases h
      · split at h
        · cases h
        · split at h
          · rename_i hm
            cases h
            exact hm
          · cases h
  · intro v h
    simp only [parseIntM] at h
    split at h
    · cases h
    · split at h
      · cases h
      · split at h
        · rename_i hrange
          cases h
          exact hrange
        · cases h
  · intro n h
    simp only [parseUnsignedLongM] at h
    split at h
    · cases h
    · split at h
      · cases h
      · split at h
        · cases h
        · split at h
          · rename_i hm
            cases h
            exact hm
          · cases h
  · intro v h
    simp only [parseLongM] at h
    split at h
    · cases h
    · split at h
      · cases h
      · split at h
        · rename_i hrange
          cases h
          exact hrange
        · cases h

/-- C4 witness: the policy applied to the concrete literals 1.5 (fraction
present: every integer kind fails), -7 (leading minus: the unsigned kinds
fail) and 42 (in range for the 32-bit unsigned kind). -/
theorem integer_parse_kinds_policy_witness :
    (parseUnsignedIntM ("1.5".toList) = none ∧ parseIntM ("1.5".toList) = none ∧
      parseUnsignedLongM ("1.5".toList) = none ∧ parseLongM ("1.5".toList) = none) ∧
    (parseUnsignedIntM ("-7".toList) = none ∧
      parseUnsignedLongM ("-7".toList) = none) ∧
    (42 : Nat) < 2 ^ 32 :=
  ⟨(integer_parse_kinds_policy ("1.5".toList)).1 (by decide),
   (integer_parse_kinds_policy ("-7".toList)).2.1 ("7".toList) (by decide),
   (integer_parse_kinds_policy ("42".toList)).2.2.1 42 (by decide)⟩

/-! ## Tokenizer (section 4.2 of the spec)

`Json::tokenize` lives in `Json.cpp`, which is not in the source tree; the
machine below is modelled from the spec's single left-to-right scan: skip
whitespace, classify the next byte, take conservative scalar spans (maximal
`[0-9eE+.-]` runs for numbers, matching unescaped quote for strings,
letter runs for literals), validate separators against the innermost open
container, backpatch a container's child count on its closing bracket, and
require exactly one top-level value.  The explicit container stack is the
`stack` argument; the scan is driven by character-count fuel instead of the
source's unbounded loop, which changes no observable result. -/

/-- Whitespace bytes skipped by the tokenizer. -/
def isWs (c : Char) : Bool := c = ' ' || c = '\t' || c = '\n' || c = '\r'

/-- Bytes that may be part of a number span: the tokenizer takes the
maximal run of these as the conservative span, deferring validation. -/
def isNumByte (c : Char) : Bool :=
  c.isDigit || c = 'e' || c = 'E' || c = '+' || c = '-' || c = '.'

/-- A tokenizer error: message plus byte offset, as reported alongside the
absent Document. -/
structure TokErr where
  msg : String
  offset : Nat
deriving DecidableEq, Repr

/-- Scan a string literal after its opening quote up to the matching
unescaped closing quote, tracking backslash escapes only enough to skip
escaped quotes.  Returns the number of bytes consumed (closing quote
included) and the rest; none when the input ends first. -/
def scanStringBody : List Char → Option (Nat × List Char)
  | [] => none
  | c :: rest =>
    if c = '"' then some (1, rest)
    else if c = '\\' then
      match rest with
      | [] => none
      | _ :: rest2 => (scanStringBody rest2).map (fun p => (p.1 + 2, p.2))
    else (scanStringBody rest).map (fun p => (p.1 + 1, p.2))

/-- What the scan position inside a container expects next; objects
alternate key, colon, value and comma, arrays alternate value and comma,
and the just-opened phases additionally allow an immediate close. -/
inductive Phase where
  | objKeyFirst | objKey | objColon | objValue | objCommaEnd
  | arrValueFirst | arrValue | arrCommaEnd
deriving DecidableEq, Repr

/-- One frame of the explicit container stack: the open container token's
index, the current key token's index (meaningful in object value phases)
and the phase. -/
structure Frame where
  idx : Nat
  curKey : Nat
  phase : Phase
deriving DecidableEq, Repr

/-- Backpatch the child count of the token at an index. -/
def setCC (toks : List Tok) (i : Nat) (cc : Nat) : List Tok :=
  match toks.get? i with
  | some t => toks.set i ⟨t.ttype, cc⟩
  | none => toks

/-- Bookkeeping after a complete value subtree: an object frame backpatches
the current key's child count (the number of tokens appended after the key)
and moves to expect a comma or close; an array frame moves to expect a
comma or close. -/
def valueDone (toks : List Tok) (stack : List Frame) : List Tok × List Frame :=
  match stack with
  | [] => (toks, [])
  | f :: fs =>
    match f.phase with
    | .objValue =>
        (setCC toks f.curKey (toks.length - f.curKey - 1),
         ⟨f.idx, f.curKey, .objCommaEnd⟩ :: fs)
    | .arrValueFirst => (toks, ⟨f.idx, f.curKey, .arrCommaEnd⟩ :: fs)
    | .arrValue => (toks, ⟨f.idx, f.curKey, .arrCommaEnd⟩ :: fs)
    | _ => (toks, stack)

/-- Whether the innermost frame expects a value next (the empty stack
expects the single top-level value). -/
def expectsValue : List Frame → Bool
  | [] => true
  | f :: _ => f.phase = .objValue || f.phase = .arrValueFirst || f.phase = .arrValue

/-- Whether the innermost frame is a just-opened array, whose immediate
closing bracket forms an empty array. -/
def atArrayStart : List Frame → Bool
  | f :: _ => f.phase = .arrValueFirst
  | [] => false

/-- Modelled from the spec: the tokenizer's scan loop, from the start of the
input up to the end of the first complete top-level value.  Returns the
token array, the unconsumed rest and its byte offset; errors carry a
message and offset.  The fuel argument only bounds the loop (one unit per
consumed byte); it never expires when started with the input length plus
one. -/
def runTok : Nat → List Tok → List Frame → List Char → Nat →
    Except TokErr (List Tok × List Char × Nat)
  | 0, _, _, _, pos => .error ⟨"Utility::Json: internal loop bound exhausted", pos⟩
  | fuel + 1, toks, stack, cs, pos =>
    match cs with
    | [] => .error ⟨"Utility::Json: file too short, expected more data", pos⟩
    | c :: rest =>
      if isWs c then runTok fuel toks stack rest (pos + 1)
      else if expectsValue stack then
        -- classify the first byte of a value
        if c = '{' then
          runTok fuel (toks ++ [⟨.object, 0⟩])
            (⟨toks.length, 0, .objKeyFirst⟩ :: stack) rest (pos + 1)
        else if c = '[' then
          runTok fuel (toks ++ [⟨.array, 0⟩])
            (⟨toks.length, 0, .arrValueFirst⟩ :: stack) rest (pos + 1)
        else if c = '"' then
          match scanStringBody rest with
          | none => .error ⟨"Utility::Json: file too short, unterminated string", pos⟩
          | some (n, rest2) =>
            match stack with
            | [] => .ok (toks ++ [⟨.stringValue, 0⟩], rest2, pos + n + 1)
            | _ =>
              let r := valueDone (toks ++ [⟨.stringValue, 0⟩]) stack
              runTok fuel r.1 r.2 rest2 (pos + n + 1)
        else if c = ']' ∧ atArrayStart stack = true then
          -- an immediately closed empty array
          match stack with
          | [] => .error ⟨"Utility::Json: internal stack mismatch", pos⟩
          | f :: fs =>
            let toks2 := setCC toks f.idx (toks.length - f.idx - 1)
            match fs with
            | [] => .ok (toks2, rest, pos + 1)
            | _ =>
              let r := valueDone toks2 fs
              runTok fuel r.1 r.2 rest (pos + 1)
        else if c.isDigit ∨ c = '-' then
          let span := (c :: rest).takeWhile isNumByte
          let rest2 := (c :: rest).dropWhile isNumByte
          match stack with
          | [] => .ok (toks ++ [⟨.number, 0⟩], rest2, pos + span.length)
          | _ =>
            let r := valueDone (toks ++ [⟨.number, 0⟩]) stack
            runTok fuel r.1 r.2 rest2 (pos + span.length)
        else if c = 'n' ∨ c = 't' ∨ c = 'f' then
          let span := (c :: rest).takeWhile Char.isAlpha
          let rest2 := (c :: rest).dropWhile Char.isAlpha
          let t : Tok := if c = 'n' then ⟨.null, 0⟩ else ⟨.boolean, 0⟩
          match stack with
          | [] => .ok (toks ++ [t], rest2, pos + span.length)
          | _ =>
            let r := valueDone (toks ++ [t]) stack
            runTok fuel r.1 r.2 rest2 (pos + span.length)
        else .error ⟨"Utility::Json: expected a value", pos⟩
      else
        match stack with
        | [] => .error ⟨"Utility::Json: internal stack mismatch", pos⟩
        | f :: fs =>
          match f.phase with
          | .objKeyFirst =>
            if c = '"' then
              match scanStringBody rest with
              | none =>
                  .error ⟨"Utility::Json: file too short, unterminated string", pos⟩
              | some (n, rest2) =>
                  runTok fuel (toks ++ [⟨.stringKey, 0⟩])
                    (⟨f.idx, toks.length, .objColon⟩ :: fs) rest2 (pos + n + 1)
            else if c = '}' then
              let toks2 := setCC toks f.idx (toks.length - f.idx - 1)
              match fs with
              | [] => .ok (toks2, rest, pos + 1)
              | _ =>
                let r := valueDone toks2 fs
                runTok fuel r.1 r.2 rest (pos + 1)
            else .error ⟨"Utility::Json: expected a string key or object end", pos⟩
          | .objKey =>
            if c = '"' then
              match scanStringBody rest with
              | none =>
                  .error ⟨"Utility::Json: file too short, unterminated string", pos⟩
              | some (n, rest2) =>
                  runTok fuel (toks ++ [⟨.stringKey, 0⟩])
                    (⟨f.idx, toks.length, .objColon⟩ :: fs) rest2 (pos + n + 1)
            else .error ⟨"Utility::Json: expected a string key", pos⟩
          | .objColon =>
            if c = ':' then
              runTok fuel toks (⟨f.idx, f.curKey, .objValue⟩ :: fs) rest (pos + 1)
            else .error ⟨"Utility::Json: expected a colon", pos⟩
          | .objCommaEnd =>
            if c = ',' then
              runTok fuel toks (⟨f.idx, f.curKey, .objKey⟩ :: fs) rest (pos + 1)
            else if c = '}' then
              let toks2 := setCC toks f.idx (toks.length - f.idx - 1)
              match fs with
              | [] => .ok (toks2, rest, pos + 1)
              | _ =>
                let r := valueDone toks2 fs
                runTok fuel r.1 r.2 rest (pos + 1)
            else .error ⟨"Utility::Json: expected a comma or object end", pos⟩
          | .arrCommaEnd =>
            if c = ',' then
              runTok fuel toks (⟨f.idx, f.curKey, .arrValue⟩ :: fs) rest (pos + 1)
            else if c = ']' then
              let toks2 := setCC toks f.idx (toks.length - f.idx - 1)
              match fs with
              | [] => .ok (toks2, rest, pos + 1)
              | _ =>
                let r := valueDone toks2 fs
                runTok fuel r.1 r.2 rest (pos + 1)
            else .error ⟨"Utility::Json: expected a comma or array end", pos⟩
          | _ => .error ⟨"Utility::Json: internal phase mismatch", pos⟩

/-- Modelled from the spec: the whole tokenization step behind
`Json::fromString`.  Scans exactly one top-level value, then requires the
rest of the input to be whitespace only; an empty input, a structural
error, or trailing non-whitespace all fail with a message and byte offset,
and no token array (Document) is produced. -/
def tokenize (cs : List Char) : Except TokErr (List Tok) :=
  match runTok (cs.length + 1) [] [] cs 0 with
  | .error e => .error e
  | .ok (toks, rest, pos) =>
    if rest.dropWhile isWs = [] then .ok toks
    else .error ⟨"Utility::Json: expected the file to end",
      pos + (rest.takeWhile isWs).length⟩

/-- C5: tokenizing requires exactly one top-level JSON value: an empty
input fails, and any input with non-whitespace text after its first
complete top-level value fails; either failure reports an error message
with a byte offset and produces no token array (no Document). -/
theorem tokenize_single_top_level_value :
    (∃ e, tokenize [] = Except.error e ∧ ∀ d, tokenize [] ≠ Except.ok d) ∧
    (∀ cs toks rest pos,
      runTok (cs.length + 1) [] [] cs 0 = Except.ok (toks, rest, pos) →
      rest.dropWhile isWs ≠ [] →
      ∃ e, tokenize cs = Except.error e ∧ ∀ d, tokenize cs ≠ Except.ok d) := by
  constructor
  · refine ⟨⟨"Utility::Json: file too short, expected more data", 0⟩, rfl, ?_⟩
    intro d h
    simp [tokenize, runTok] at h
  · intro cs toks rest pos hrun hjunk
    refine ⟨⟨"Utility::Json: expected the file to end",
      pos + (rest.takeWhile isWs).length⟩, ?_, ?_⟩
    · unfold tokenize
      rw [hrun]
      simp [hjunk]
    · intro d h
      unfold tokenize at h
      rw [hrun] at h
      simp [hjunk] at h

/-- C5 witness: the input 1 2 — a complete number, then trailing
non-whitespace — with the scan of its first top-level value computed
concretely; tokenization of the whole input fails. -/
theorem tokenize_single_top_level_value_witness :
    runTok (("1 2".toList).length + 1) [] [] ("1 2".toList) 0
      = Except.ok ([⟨TokType.number, 0⟩], [' ', '2'], 1) ∧
    ([' ', '2'].dropWhile isWs ≠ []) ∧
    (∃ e, tokenize ("1 2".toList) = Except.error e ∧
      ∀ d, tokenize ("1 2".toList) ≠ Except.ok d) :=
  ⟨rfl, by decide,
   tokenize_single_top_level_value.2 ("1 2".toList) [⟨TokType.number, 0⟩]
     [' ', '2'] 1 rfl (by decide)⟩

/-! ## Bulk selective parsing (section 4.3 of the spec)

The bulk operations `Json::parseLiterals`, `parseDoubles`,
`parseUnsignedInts`, `parseStrings`, ... live in `Json.cpp`, which is not
in the source tree; the loop below is modelled from the spec, shared by all
kinds through the applicability filter and the per-token validator. -/

/-- Parsed kind of a token in the selective-parser model
(`JsonToken::ParsedType`). -/
inductive PKind where
  | none | double | float | uint32 | int32 | uint64 | int64 | other
deriving DecidableEq, Repr

/-- A token as the selective parser sees it: structural type, raw text, and
the parse state (kind and cached value) the bulk operations mutate in
place. -/
structure PTok where
  ttype : TokType
  text : List Char
  pkind : PKind
  pval : Option Int
deriving DecidableEq, Repr

/-- Modelled from the spec: the bulk selective-parse loop over a subtree's
token array shared by `Json::parseLiterals` / `parseDoubles` /
`parseUnsignedInts` / `parseStrings` / ....  Tokens of an inapplicable type
and tokens already parsed as the requested kind are skipped; other tokens
are validated and overwritten (a different previous kind is reparsed, last
call wins); on the first invalid value the call aborts returning false,
keeping every earlier mutation and leaving all later tokens untouched. -/
def bulkParse (applicable : TokType → Bool) (target : PKind)
    (validate : List Char → Option Int) : List PTok → Bool × List PTok
  | [] => (true, [])
  | t :: rest =>
    if applicable t.ttype = false then
      let r := bulkParse applicable target validate rest
      (r.1, t :: r.2)
    else if t.pkind = target then
      let r := bulkParse applicable target validate rest
      (r.1, t :: r.2)
    else
      match validate t.text with
      | none => (false, t :: rest)
      | some v =>
        let r := bulkParse applicable target validate rest
        (r.1, ⟨t.ttype, t.text, target, some v⟩ :: r.2)

/-- The effect of one bulk-parse step on one token: skipped if of the wrong
type or already of the requested kind, overwritten with the requested kind
and cached value if its text validates, unchanged if validation fails. -/
def tryOne (applicable : TokType → Bool) (target : PKind)
    (validate : List Char → Option Int) (t : PTok) : PTok :=
  if applicable t.ttype = false then t
  else if t.pkind = target then t
  else
    match validate t.text with
    | none => t
    | some v => ⟨t.ttype, t.text, target, some v⟩

/-- The representative concrete instance: `Json::parseUnsignedInts` filters
Number tokens and validates with the 32-bit unsigned policy. -/
def parseUnsignedInts (toks : List PTok) : Bool × List PTok :=
  bulkParse (fun t => t = TokType.number) PKind.uint32
    (fun s => (parseUnsignedIntM s).map (fun n => (n : Int))) toks

/-- C6: when a bulk parse operation over a subtree meets its first invalid
value, the call aborts and reports the failure, every token the same call
had already parsed keeps its new parsed state (no rollback), and every
token at or after the failure point is untouched. -/
theorem bulk_parse_abort_no_rollback (applicable : TokType → Bool)
    (target : PKind) (validate : List Char → Option Int)
    (pre : List PTok) (t : PTok) (post : List PTok)
    (hpre : ∀ u ∈ pre, applicable u.ttype = false ∨ u.pkind = target ∨
      (validate u.text).isSome = true)
    (happ : applicable t.ttype = true) (hkind : t.pkind ≠ target)
    (hfail : validate t.text = none) :
    bulkParse applicable target validate (pre ++ t :: post) =
      (false, pre.map (tryOne applicable target validate) ++ t :: post) := by
  induction pre with
  | nil =>
    simp only [List.nil_append, List.map_nil]
    rw [bulkParse]
    rw [if_neg (by simp [happ]), if_neg hkind, hfail]
  | cons u pre ih =>
    have hu := hpre u (by simp)
    have hrest : ∀ w ∈ pre, applicable w.ttype = false ∨ w.pkind = target ∨
        (validate w.text).isSome = true := by
      intro w hw
      exact hpre w (by simp [hw])
    have ihr := ih hrest
    rcases hu with hu | hu | hu
    · simp only [List.cons_append]
      rw [bulkParse]
      rw [if_pos hu, ihr]
      simp [tryOne, hu]
    · by_cases hna : applicable u.ttype = false
      · simp only [List.cons_append]
        rw [bulkParse, if_pos hna, ihr]
        simp [tryOne, hna]
      · simp only [List.cons_append]
        rw [bulkParse, if_neg hna, if_pos hu, ihr]
        simp [tryOne, hna, hu]
    · obtain ⟨v, hv⟩ := Option.isSome_iff_exists.1 hu
      by_cases hna : applicable u.ttype = false
      · simp only [List.cons_append]
        rw [bulkParse, if_pos hna, ihr]
        simp [tryOne, hna]
      · by_cases hk : u.pkind = target
        · simp only [List.cons_append]
          rw [bulkParse, if_neg hna, if_pos hk, ihr]
          simp [tryOne, hna, hk]
        · simp only [List.cons_append]
          rw [bulkParse, if_neg hna, if_neg hk, hv, ihr]
          simp [tryOne, hna, hk, hv]

/-- C6 witness: `parseUnsignedInts` over the three Number tokens 1, 2.5, 3
aborts at 2.5, keeps the already-parsed state of 1, and leaves 2.5 and 3
untouched. -/
theorem bulk_parse_abort_no_rollback_witness :
    bulkParse (fun t => t = TokType.number) PKind.uint32
      (fun s => (parseUnsignedIntM s).map (fun n => (n : Int)))
      ([⟨TokType.number, "1".toList, PKind.none, none⟩] ++
        ⟨TokType.number, "2.5".toList, PKind.none, none⟩ ::
        [⟨TokType.number, "3".toList, PKind.none, none⟩]) =
    (false,
      [⟨TokType.number, "1".toList, PKind.none, none⟩].map
        (tryOne (fun t => t = TokType.number) PKind.uint32
          (fun s => (parseUnsignedIntM s).map (fun n => (n : Int)))) ++
      ⟨TokType.number, "2.5".toList, PKind.none, none⟩ ::
      [⟨TokType.number, "3".toList, PKind.none, none⟩]) :=
  bulk_parse_abort_no_rollback _ _ _ _ _ _ (by decide) (by decide) (by decide)
    (by decide)

theorem bulk_parse_success_all_target (applicable : TokType → Bool)
    (target : PKind) (validate : List Char → Option Int) :
    ∀ (toks out : List PTok),
      bulkParse applicable target validate toks = (true, out) →
      ∀ u ∈ out, applicable u.ttype = true → u.pkind = target := by
  intro toks
  induction toks with
  | nil =>
    intro out h u hu
    rw [bulkParse] at h
    rw [Prod.mk.injEq] at h
    rw [← h.2] at hu
    simp at hu
  | cons t rest ih =>
    intro out h u hu happ
    rcases hr : bulkParse applicable target validate rest with ⟨b, rest2⟩
    simp only [bulkParse, hr] at h
    by_cases hna : applicable t.ttype = false
    · rw [if_pos hna] at h
      rw [Prod.mk.injEq] at h
      obtain ⟨hb, hout⟩ := h
      subst hb
      rw [← hout] at hu
      rcases List.mem_cons.1 hu with hu | hu
      · subst hu
        rw [happ] at hna
        cases hna
      · exact ih rest2 hr u hu happ
    · rw [if_neg hna] at h
      by_cases hk : t.pkind = target
      · rw [if_pos hk] at h
        rw [Prod.mk.injEq] at h
        obtain ⟨hb, hout⟩ := h
        subst hb
        rw [← hout] at hu
        rcases List.mem_cons.1 hu with hu | hu
        · subst hu; exact hk
        · exact ih rest2 hr u hu happ
      · rw [if_neg hk] at h
        cases hv : validate t.text with
        | none =>
          rw [hv] at h
          rw [Prod.mk.injEq] at h
          cases h.1
        | some v =>
          rw [hv] at h
          rw [Prod.mk.injEq] at h
          obtain ⟨hb, hout⟩ := h
          subst hb
          rw [← hout] at hu
          rcases List.mem_cons.1 hu with hu | hu
          · subst hu; rfl
          · exact ih rest2 hr u hu happ

theorem bulk_parse_all_target_id (applicable : TokType → Bool)
    (target : PKind) (validate : List Char → Option Int) :
    ∀ toks : List PTok,
      (∀ u ∈ toks, applicable u.ttype = true → u.pkind = target) →
      bulkParse applicable target validate toks = (true, toks) := by
  intro toks
  induction toks with
  | nil => intro _; rfl
  | cons t rest ih =>
    intro h
    have hrest : ∀ u ∈ rest, applicable u.ttype = true → u.pkind = target := by
      intro u hu
      exact h u (by simp [hu])
    rw [bulkParse]
    by_cases hna : applicable t.ttype = false
    · rw [if_pos hna, ih hrest]
    · rw [if_neg hna]
      have hk : t.pkind = target :=
        h t (by simp) (by revert hna; cases applicable t.ttype <;> simp)
      rw [if_pos hk, ih hrest]

/-- C7: bulk parse calls are idempotent: after a successful bulk parse of
some kind over a subtree, running the identical call again skips every
token (each applicable token is already parsed as the requested kind),
succeeds, and changes no token's state. -/
theorem bulk_parse_idempotent (applicable : TokType → Bool) (target : PKind)
    (validate : List Char → Option Int) (toks out : List PTok)
    (h : bulkParse applicable target validate toks = (true, out)) :
    bulkParse applicable target validate out = (true, out) :=
  bulk_parse_all_target_id applicable target validate out
    (bulk_parse_success_all_target applicable target validate toks out h)

/-- C7 witness: a second `parseUnsignedInts` over the result of a
successful first call over a Number and a Bool token returns the result
unchanged and succeeds. -/
theorem bulk_parse_idempotent_witness :
    bulkParse (fun t => t = TokType.number) PKind.uint32
      (fun s => (parseUnsignedIntM s).map (fun n => (n : Int)))
      [⟨TokType.number, "1".toList, PKind.uint32, some 1⟩,
       ⟨TokType.boolean, "true".toList, PKind.none, none⟩] =
    (true,
     [⟨TokType.number, "1".toList, PKind.uint32, some 1⟩,
      ⟨TokType.boolean, "true".toList, PKind.none, none⟩]) :=
  bulk_parse_idempotent (fun t => t = TokType.number) PKind.uint32
    (fun s => (parseUnsignedIntM s).map (fun n => (n : Int)))
    [⟨TokType.number, "1".toList, PKind.none, none⟩,
     ⟨TokType.boolean, "true".toList, PKind.none, none⟩]
    [⟨TokType.number, "1".toList, PKind.uint32, some 1⟩,
     ⟨TokType.boolean, "true".toList, PKind.none, none⟩]
    (by decide)

/-! ## Bit-packed token representation (the header's private enums)

The constants and accessors below transcribe the private enum values and
the inline member functions of `JsonToken` from the header, for the 64-bit
representation (`_sizeFlagsParsedTypeType` word plus the value union) and,
where claims need it, the 32-bit representation (`_sizeParsedType` word
plus the `_childCountFlagsTypeNan` word with the NaN trick). -/

def TypeMask : Nat := 7 <<< 61

def TypeObject : Nat := 1 <<< 61

def TypeArray : Nat := 2 <<< 61

def TypeNull : Nat := 3 <<< 61

def TypeBool : Nat := 4 <<< 61

def TypeNumber : Nat := 5 <<< 61

def TypeString : Nat := 6 <<< 61

def ParsedTypeMask : Nat := 7 <<< 58

def ParsedTypeNone : Nat := 0

def ParsedTypeDouble : Nat := 1 <<< 58

def ParsedTypeFloat : Nat := 2 <<< 58

def ParsedTypeUnsignedInt : Nat := 3 <<< 58

def ParsedTypeInt : Nat := 4 <<< 58

def ParsedTypeUnsignedLong : Nat := 5 <<< 58

def ParsedTypeLong : Nat := 6 <<< 58

def ParsedTypeOther : Nat := 7 <<< 58

def FlagStringKey : Nat := 1 <<< 57

/-- The value member of the `JsonToken` union on 64-bit targets: the child
count (structural and unparsed tokens) or exactly one cached parsed value.
Floating-point members carry their raw IEEE bit pattern, uninterpreted. -/
inductive Payload where
  | count : Nat → Payload
  | pbool : Bool → Payload
  | pdouble : Nat → Payload
  | pfloat : Nat → Payload
  | puint64 : Nat → Payload
  | pint64 : Int → Payload
  | puint32 : Nat → Payload
  | pint32 : Int → Payload
  | pstring : List Char → Payload
deriving DecidableEq, Repr

/-- A 64-bit-representation token: the packed
size-flags-parsedtype-type word and the value union. -/
structure JsonToken64 where
  sizeFlagsParsedTypeType : Nat
  payload : Payload
deriving DecidableEq, Repr

/-- The union member `_childCount`, read only on Object and Array tokens,
whose payload is always a count. -/
def rawChildCount : Payload → Nat
  | .count n => n
  | _ => 0

/-- The union member `_parsedBool`. -/
def rawBool : Payload → Bool
  | .pbool b => b
  | _ => false

/-- The union member `_parsedDouble` (raw bits). -/
def rawDouble : Payload → Nat
  | .pdouble d => d
  | _ => 0

/-- The union member `_parsedFloat` (raw bits). -/
def rawFloat : Payload → Nat
  | .pfloat f => f
  | _ => 0

/-- The union member `_parsedUnsignedLong`. -/
def rawUnsignedLong : Payload → Nat
  | .puint64 n => n
  | _ => 0

/-- The union member `_parsedLong`. -/
def rawLong : Payload → Int
  | .pint64 i => i
  | _ => 0

/-- The union member `_parsedUnsignedInt`. -/
def rawUnsignedInt : Payload → Nat
  | .puint32 n => n
  | _ => 0

/-- The union member `_parsedInt`. -/
def rawInt : Payload → Int
  | .pint32 i => i
  | _ => 0

/-- The union member `_parsedString`. -/
def rawString : Payload → List Char
  | .pstring s => s
  | _ => []

/-- `JsonToken::type()`, 64-bit branch: the top three bits of the packed
word. -/
def type64 (t : JsonToken64) : Nat := t.sizeFlagsParsedTypeType &&& TypeMask

/-- `JsonToken::isParsed()`, 64-bit branch: the C++ expression is the
integer `word & ParsedTypeMask` converted to bool, i.e. nonzero. -/
def isParsed64 (t : JsonToken64) : Bool :=
  t.sizeFlagsParsedTypeType &&& ParsedTypeMask != 0

/-- `JsonToken::parsedType()`, 64-bit branch: the parsed-type bits of the
packed word. -/
def parsedType64 (t : JsonToken64) : Nat :=
  t.sizeFlagsParsedTypeType &&& ParsedTypeMask

/-- `JsonToken::firstChild()`, 64-bit branch, at the index level: the
pointer `this + 1` becomes `some (i + 1)` and `nullptr` becomes `none`.
The token has a child if it is an Object or Array with nonzero stored
child count, or if it is an object key. -/
def firstChild64 (i : Nat) (t : JsonToken64) : Option Nat :=
  if ((type64 t = TypeObject ∨ type64 t = TypeArray) ∧
        rawChildCount t.payload ≠ 0) ∨
      t.sizeFlagsParsedTypeType &&& FlagStringKey ≠ 0 then
    some (i + 1)
  else none

/-- Modelled from the spec: `JsonToken::childCount()` (implemented in
`Json.cpp`, not in the source tree).  Objects and arrays store the count
directly; a String object key owns its value's whole subtree, one plus the
following value token's own count; all other tokens have no children.  The
argument is the immediately following token, if any. -/
def childCount64 (t : JsonToken64) (next : Option JsonToken64) : Nat :=
  if type64 t = TypeObject ∨ type64 t = TypeArray then rawChildCount t.payload
  else if t.sizeFlagsParsedTypeType &&& FlagStringKey ≠ 0 then
    1 + (match next with
      | some u =>
        if type64 u = TypeObject ∨ type64 u = TypeArray then
          rawChildCount u.payload
        else 0
      | none => 0)
  else 0

/-- C8: `firstChild()` is determined by the child count alone: it returns
the immediately following token exactly when `childCount()` is positive and
null otherwise; in particular Null, Bool and Number tokens and empty
Objects and Arrays yield null.  The hypothesis is the tokenizer's
representation invariant that only String tokens carry the object-key
flag. -/
theorem firstChild_iff_childCount (t : JsonToken64) (next : Option JsonToken64)
    (i : Nat)
    (hkey : t.sizeFlagsParsedTypeType &&& FlagStringKey ≠ 0 →
      type64 t = TypeString) :
    (firstChild64 i t = some (i + 1) ↔ 0 < childCount64 t next) ∧
    (firstChild64 i t = none ↔ childCount64 t next = 0) := by
  have hiff : (((type64 t = TypeObject ∨ type64 t = TypeArray) ∧
      rawChildCount t.payload ≠ 0) ∨
      t.sizeFlagsParsedTypeType &&& FlagStringKey ≠ 0) ↔
      0 < childCount64 t next := by
    constructor
    · intro hor
      rcases hor with ⟨hobj, hcc⟩ | hf
      · rw [childCount64.eq_def, if_pos hobj]
        omega
      · have hs := hkey hf
        have hnobj : ¬ (type64 t = TypeObject ∨ type64 t = TypeArray) := by
          rw [hs]
          decide
        rw [childCount64.eq_def, if_neg hnobj, if_pos hf]
        omega
    · intro hpos
      by_cases hobj : type64 t = TypeObject ∨ type64 t = TypeArray
      · rw [childCount64.eq_def, if_pos hobj] at hpos
        exact Or.inl ⟨hobj, by omega⟩
      · by_cases hf : t.sizeFlagsParsedTypeType &&& FlagStringKey ≠ 0
        · exact Or.inr hf
        · rw [childCount64.eq_def, if_neg hobj, if_neg hf] at hpos
          omega
  constructor
  · constructor
    · intro hsome
      apply hiff.mp
      by_contra hc
      rw [firstChild64.eq_def, if_neg hc] at hsome
      cases hsome
    · intro hpos
      rw [firstChild64.eq_def, if_pos (hiff.mpr hpos)]
  · constructor
    · intro hnone
      by_contra hcc
      have hpos : 0 < childCount64 t next := by omega
      rw [firstChild64.eq_def, if_pos (hiff.mpr hpos)] at hnone
      cases hnone
    · intro hz
      rw [firstChild64.eq_def, if_neg]
      intro hc
      have := hiff.mp hc
      omega

/-- C8 witness: an empty Object token (packed word TypeObject with the
Other parsed type, stored child count 0) at index 5: `firstChild` is null
and `childCount` is 0. -/
theorem firstChild_iff_childCount_witness :
    (firstChild64 5 ⟨TypeObject + ParsedTypeOther, Payload.count 0⟩ = some 6 ↔
      0 < childCount64 ⟨TypeObject + ParsedTypeOther, Payload.count 0⟩ none) ∧
    (firstChild64 5 ⟨TypeObject + ParsedTypeOther, Payload.count 0⟩ = none ↔
      childCount64 ⟨TypeObject + ParsedTypeOther, Payload.count 0⟩ none = 0) :=
  firstChild_iff_childCount ⟨TypeObject + ParsedTypeOther, Payload.count 0⟩
    none 5 (by decide)

/-! ## Typed getters (inline in the header)

Each `as*` getter checks its exact type and parsed-kind contract with
CORRADE_ASSERT and then returns the cached union member.  The assertion is
modelled as the error case of an `Except`: the caller contract violation is
a fail-fast outcome, never a recoverable parse result. -/

/-- `JsonToken::asNull()`: asserts a parsed Null token. -/
def asNull64 (t : JsonToken64) : Except String Unit :=
  if type64 t = TypeNull ∧ isParsed64 t = true then .ok ()
  else .error "Utility::JsonToken::asNull(): token is not a parsed null"

/-- `JsonToken::asBool()`: asserts a parsed Bool token, returns
`_parsedBool`. -/
def asBool64 (t : JsonToken64) : Except String Bool :=
  if type64 t = TypeBool ∧ isParsed64 t = true then .ok (rawBool t.payload)
  else .error "Utility::JsonToken::asBool(): token is not a parsed bool"

/-- `JsonToken::asDouble()`: asserts parsed type Double, returns
`_parsedDouble`. -/
def asDouble64 (t : JsonToken64) : Except String Nat :=
  if parsedType64 t = ParsedTypeDouble then .ok (rawDouble t.payload)
  else .error "Utility::JsonToken::asDouble(): token is not parsed as a double"

/-- `JsonToken::asFloat()`: asserts parsed type Float, returns
`_parsedFloat`. -/
def asFloat64 (t : JsonToken64) : Except String Nat :=
  if parsedType64 t = ParsedTypeFloat then .ok (rawFloat t.payload)
  else .error "Utility::JsonToken::asFloat(): token is not parsed as a float"

/-- `JsonToken::asUnsignedInt()`: asserts parsed type UnsignedInt, returns
`_parsedUnsignedInt`. -/
def asUnsignedInt64 (t : JsonToken64) : Except String Nat :=
  if parsedType64 t = ParsedTypeUnsignedInt then .ok (rawUnsignedInt t.payload)
  else .error "Utility::JsonToken::asUnsignedInt(): wrong parsed type"

/-- `JsonToken::asInt()`: asserts parsed type Int, returns `_parsedInt`. -/
def asInt64 (t : JsonToken64) : Except String Int :=
  if parsedType64 t = ParsedTypeInt then .ok (rawInt t.payload)
  else .error "Utility::JsonToken::asInt(): wrong parsed type"

/-- `JsonToken::asUnsignedLong()`: asserts parsed type UnsignedLong,
returns `_parsedUnsignedLong`. -/
def asUnsignedLong64 (t : JsonToken64) : Except String Nat :=
  if parsedType64 t = ParsedTypeUnsignedLong then
    .ok (rawUnsignedLong t.payload)
  else .error "Utility::JsonToken::asUnsignedLong(): wrong parsed type"

/-- `JsonToken::asLong()`: asserts parsed type Long, returns
`_parsedLong`. -/
def asLong64 (t : JsonToken64) : Except String Int :=
  if parsedType64 t = ParsedTypeLong then .ok (rawLong t.payload)
  else .error "Utility::JsonToken::asLong(): wrong parsed type"

/-- `JsonToken::asSize()`: asserts parsed type Size, an alias of
UnsignedLong on 64-bit targets, returns `_parsedUnsignedLong`. -/
def asSize64 (t : JsonToken64) : Except String Nat :=
  if parsedType64 t = ParsedTypeUnsignedLong then
    .ok (rawUnsignedLong t.payload)
  else .error "Utility::JsonToken::asSize(): wrong parsed type"

/-- Modelled from the spec: `JsonToken::asString()` (implemented in
`Json.cpp`, not in the source tree) asserts a parsed String token and
returns the cached view or decoded buffer. -/
def asString64 (t : JsonToken64) : Except String (List Char) :=
  if type64 t = TypeString ∧ isParsed64 t = true then .ok (rawString t.payload)
  else .error "Utility::JsonToken::asString(): token is not a parsed string"

/-- C9: every typed getter fails fast with the assertion whenever the token
does not carry the exact matching type and parsed kind, and under that
precondition returns the cached parsed value without any failure.  The
payload hypotheses are the representation invariant that a parsed token's
union holds the member matching its parsed kind. -/
theorem typed_getters_contract (t : JsonToken64) :
    (¬ (type64 t = TypeNull ∧ isParsed64 t = true) →
      ∃ m, asNull64 t = .error m) ∧
    (type64 t = TypeNull ∧ isParsed64 t = true → asNull64 t = .ok ()) ∧
    (¬ (type64 t = TypeBool ∧ isParsed64 t = true) →
      ∃ m, asBool64 t = .error m) ∧
    (type64 t = TypeBool ∧ isParsed64 t = true →
      ∀ b, t.payload = .pbool b → asBool64 t = .ok b) ∧
    (¬ parsedType64 t = ParsedTypeDouble → ∃ m, asDouble64 t = .error m) ∧
    (parsedType64 t = ParsedTypeDouble →
      ∀ d, t.payload = .pdouble d → asDouble64 t = .ok d) ∧
    (¬ parsedType64 t = ParsedTypeFloat → ∃ m, asFloat64 t = .error m) ∧
    (parsedType64 t = ParsedTypeFloat →
      ∀ f, t.payload = .pfloat f → asFloat64 t = .ok f) ∧
    (¬ parsedType64 t = ParsedTypeUnsignedInt →
      ∃ m, asUnsignedInt64 t = .error m) ∧
    (parsedType64 t = ParsedTypeUnsignedInt →
      ∀ n, t.payload = .puint32 n → asUnsignedInt64 t = .ok n) ∧
    (¬ parsedType64 t = ParsedTypeInt → ∃ m, asInt64 t = .error m) ∧
    (parsedType64 t = ParsedTypeInt →
      ∀ n, t.payload = .pint32 n → asInt64 t = .ok n) ∧
    (¬ parsedType64 t = ParsedTypeUnsignedLong →
      (∃ m, asUnsignedLong64 t = .error m) ∧ (∃ m, asSize64 t = .error m)) ∧
    (parsedType64 t = ParsedTypeUnsignedLong →
      ∀ n, t.payload = .puint64 n →
        asUnsignedLong64 t = .ok n ∧ asSize64 t = .ok n) ∧
    (¬ parsedType64 t = ParsedTypeLong → ∃ m, asLong64 t = .error m) ∧
    (parsedType64 t = ParsedTypeLong →
      ∀ n, t.payload = .pint64 n → asLong64 t = .ok n) ∧
    (¬ (type64 t = TypeString ∧ isParsed64 t = true) →
      ∃ m, asString64 t = .error m) ∧
    (type64 t = TypeString ∧ isParsed64 t = true →
      ∀ s, t.payload = .pstring s → asString64 t = .ok s) := by
  refine ⟨?_, ?_, ?_, ?_, ?_, ?_, ?_, ?_, ?_, ?_, ?_, ?_, ?_, ?_, ?_, ?_,
    ?_, ?_⟩
  · intro h
    exact ⟨_, by rw [asNull64, if_neg h]⟩
  · intro h
    rw [asNull64, if_pos h]
  · intro h
    exact ⟨_, by rw [asBool64, if_neg h]⟩
  · intro h b hb
    rw [asBool64, if_pos h, hb]
    rfl
  · intro h
    exact ⟨_, by rw [asDouble64, if_neg h]⟩
  · intro h d hd
    rw [asDouble64, if_pos h, hd]
    rfl
  · intro h
    exact ⟨_, by rw [asFloat64, if_neg h]⟩
  · intro h f hf
    rw [asFloat64, if_pos h, hf]
    rfl
  · intro h
    exact ⟨_, by rw [asUnsignedInt64, if_neg h]⟩
  · intro h n hn
    rw [asUnsignedInt64, if_pos h, hn]
    rfl
  · intro h
    exact ⟨_, by rw [asInt64, if_neg h]⟩
  · intro h n hn
    rw [asInt64, if_pos h, hn]
    rfl
  · intro h
    constructor
    · exact ⟨_, by rw [asUnsignedLong64, if_neg h]⟩
    · exact ⟨_, by rw [asSize64, if_neg h]⟩
  · intro h n hn
    constructor
    · rw [asUnsignedLong64, if_pos h, hn]
      rfl
    · rw [asSize64, if_pos h, hn]
      rfl
  · intro h
    exact ⟨_, by rw [asLong64, if_neg h]⟩
  · intro h n hn
    rw [asLong64, if_pos h, hn]
    rfl
  · intro h
    exact ⟨_, by rw [asString64, if_neg h]⟩
  · intro h s hs
    rw [asString64, if_pos h, hs]
    rfl

/-- C9 witness: `asBool` on a parsed Bool token (word TypeBool with Other
parsed type, cached value true) returns the cached value; `asNull` on an
unparsed Null token fails the assertion. -/
theorem typed_getters_contract_witness :
    asBool64 ⟨TypeBool + ParsedTypeOther, Payload.pbool true⟩ =
      Except.ok true ∧
    ∃ m, asNull64 ⟨TypeNull, Payload.count 0⟩ = Except.error m :=
  ⟨(typed_getters_contract
      ⟨TypeBool + ParsedTypeOther, Payload.pbool true⟩).2.2.2.1
      (by decide) true rfl,
   (typed_getters_contract ⟨TypeNull, Payload.count 0⟩).1 (by decide)⟩

/-! ## The 32-bit representation (for the isParsed/parsedType agreement) -/

def NanMask : Nat := 0x7ff <<< 52

def TypeMask32 : Nat := 7 <<< 49

def TypeNull32 : Nat := 3 <<< 49

def FlagParsed : Nat := 1 <<< 48

def ParsedTypeMask32 : Nat := 7 <<< 29

def ParsedTypeOther32 : Nat := 7 <<< 29

/-- A 32-bit-representation token: the `_sizeParsedType` word and the
`_childCountFlagsTypeNan` word (the NaN trick: when the NaN bits are not
all set the token is a number already parsed as one of the numeric kinds,
stored directly in the word). -/
structure JsonToken32 where
  sizeParsedType : Nat
  childCountFlagsTypeNan : Nat
deriving DecidableEq, Repr

/-- `JsonToken::isParsed()`, 32-bit branch: if NaN is set, the parsed flag
decides; otherwise the token is an already-parsed number. -/
def isParsed32 (t : JsonToken32) : Bool :=
  if t.childCountFlagsTypeNan &&& NanMask = NanMask then
    t.childCountFlagsTypeNan &&& FlagParsed != 0
  else true

/-- `JsonToken::parsedType()`, 32-bit branch: if NaN is set the parsed type
is Other or None depending on the parsed flag; otherwise it is stored in
the size word's parsed-type bits. -/
def parsedType32 (t : JsonToken32) : Nat :=
  if t.childCountFlagsTypeNan &&& NanMask = NanMask then
    (if t.childCountFlagsTypeNan &&& FlagParsed != 0 then ParsedTypeOther32
     else ParsedTypeNone)
  else t.sizeParsedType &&& ParsedTypeMask32

/-- C10: `isParsed()` returns true exactly when `parsedType()` returns a
value other than None, on both representations.  On 64-bit this holds for
every word; on 32-bit it holds under the header's representation invariant
that a token without the NaN bits is a number parsed as one of the numeric
kinds, whose nonzero parsed-type bits are stored in the size word
(ParsedTypeNone does not apply there). -/
theorem isParsed_iff_parsedType (t64 : JsonToken64) (t32 : JsonToken32)
    (h32 : t32.childCountFlagsTypeNan &&& NanMask ≠ NanMask →
      t32.sizeParsedType &&& ParsedTypeMask32 ≠ 0) :
    (isParsed64 t64 = true ↔ parsedType64 t64 ≠ ParsedTypeNone) ∧
    (isParsed32 t32 = true ↔ parsedType32 t32 ≠ ParsedTypeNone) := by
  constructor
  · rw [isParsed64, parsedType64, ParsedTypeNone]
    simp
  · by_cases hnan : t32.childCountFlagsTypeNan &&& NanMask = NanMask
    · by_cases hp : t32.childCountFlagsTypeNan &&& FlagParsed = 0
      · rw [isParsed32, if_pos hnan, parsedType32, if_pos hnan]
        simp [hp, ParsedTypeNone]
      · rw [isParsed32, if_pos hnan, parsedType32, if_pos hnan]
        have hother : ParsedTypeOther32 ≠ ParsedTypeNone := by decide
        simp [hp, hother]
    · rw [isParsed32, if_neg hnan, parsedType32, if_neg hnan]
      simp [ParsedTypeNone, h32 hnan]

/-- C10 witness: a 64-bit parsed Null token and a 32-bit unparsed Null
token (NaN bits set, parsed flag clear). -/
theorem isParsed_iff_parsedType_witness :
    (isParsed64 ⟨TypeNull + ParsedTypeOther, Payload.count 0⟩ = true ↔
      parsedType64 ⟨TypeNull + ParsedTypeOther, Payload.count 0⟩ ≠
        ParsedTypeNone) ∧
    (isParsed32 ⟨0, NanMask + TypeNull32⟩ = true ↔
      parsedType32 ⟨0, NanMask + TypeNull32⟩ ≠ ParsedTypeNone) :=
  isParsed_iff_parsedType ⟨TypeNull + ParsedTypeOther, Payload.count 0⟩
    ⟨0, NanMask + TypeNull32⟩ (by decide)
